import Mathlib

/-!
Verification of the repository's Rust source (src/rs/src/main.rs), a single
binary whose interesting parts are:

* fn calculate(botton: i32, top: i32) -> i32 { (botton..=top).filter(|e| e % 2 == 0).sum() }
* the stdin-driven multiplication table in main:
    stdin().read_line(&mut input).expect("failed to read line");
    let num: i32 = input.trim().parse().expect("enter valid num");
    for i in 1..=10 { println!("{} x {} = {}", num, i, num * i); }
* the surrounding print-only demo segments of main.

Machine integers (i32) are modelled as unbounded Int for the value-level
functions (exact whenever no i32 overflow occurs), with a separate wrapping
model (wrap32 / calculate32) for two's-complement i32 arithmetic.  Rust's
remainder operator on i32 is truncated remainder, i.e. Int.tmod.
-/

/-- The inclusive range bottom..=top of Rust, as a list of integers:
[bottom, bottom+1, ..., top], empty when bottom > top. -/
def rangeIncl (bottom top : Int) : List Int :=
  (List.range (top + 1 - bottom).toNat).map (fun k : Nat => bottom + (k : Int))

/-- Embedding of fn calculate (main.rs line 84-86):
(botton..=top).filter(|e| e % 2 == 0).sum().  Rust's % on i32 is truncated
remainder (Int.tmod); values are modelled as unbounded Int, exact whenever
the i32 sum does not overflow. -/
def calculate (botton top : Int) : Int :=
  ((rangeIncl botton top).filter (fun e => Int.tmod e 2 == 0)).sum

/-- Modelled from the spec: brute-force re-derivation of the filter-sum,
enumerating every integer of the inclusive range from the bottom up and
adding the even ones (spec section 8, property 3). -/
def bruteForce (bottom top : Int) : Int :=
  if top < bottom then 0
  else (if bottom % 2 = 0 then bottom else 0) + bruteForce (bottom + 1) top
  termination_by (top + 1 - bottom).toNat
  decreasing_by
    simp_wf
    omega

/-- The i32 range check: x fits in a 32-bit two's-complement integer. -/
def inRange32 (x : Int) : Prop :=
  -(2 ^ 31) ≤ x ∧ x ≤ 2 ^ 31 - 1

instance (x : Int) : Decidable (inRange32 x) := by
  unfold inRange32
  infer_instance

/-- Reduction of an unbounded integer into i32 two's-complement range. -/
def wrap32 (x : Int) : Int :=
  (x + 2 ^ 31) % 2 ^ 32 - 2 ^ 31

/-- Wrapping i32 addition. -/
def add32 (a b : Int) : Int :=
  wrap32 (a + b)

/-- The same iterator pipeline as calculate, but with the sum accumulated in
wrapping two's-complement i32 arithmetic (Rust release-mode semantics). -/
def calculate32 (botton top : Int) : Int :=
  ((rangeIncl botton top).filter (fun e => Int.tmod e 2 == 0)).foldl add32 0

-- Helper lemmas ------------------------------------------------------------

lemma tmod_two_eq_zero_iff (e : Int) : Int.tmod e 2 = 0 ↔ e % 2 = 0 := by
  rw [← Int.dvd_iff_tmod_eq_zero, Int.dvd_iff_emod_eq_zero]

lemma rangeIncl_eq_nil {bottom top : Int} (h : top < bottom) :
    rangeIncl bottom top = [] := by
  have h0 : (top + 1 - bottom).toNat = 0 := by omega
  simp [rangeIncl, h0]

lemma rangeIncl_eq_cons {bottom top : Int} (h : bottom ≤ top) :
    rangeIncl bottom top = bottom :: rangeIncl (bottom + 1) top := by
  have h1 : (top + 1 - bottom).toNat = (top + 1 - (bottom + 1)).toNat + 1 := by omega
  rw [rangeIncl, h1, List.range_succ_eq_map, rangeIncl, List.map_cons,
    List.map_map]
  congr 1
  · simp
  · apply List.map_congr_left
    intro k _
    simp only [Function.comp_apply]
    push_cast
    ring

lemma calculate_eq_bruteForce (bottom top : Int) :
    calculate bottom top = bruteForce bottom top := by
  generalize hn : (top + 1 - bottom).toNat = n
  induction n generalizing bottom with
  | zero =>
      have h : top < bottom := by omega
      rw [calculate, rangeIncl_eq_nil h, bruteForce, if_pos h]
      rfl
  | succ n ih =>
      have h : bottom ≤ top := by omega
      have hnlt : ¬ top < bottom := by omega
      have hrec : ((rangeIncl (bottom + 1) top).filter
          (fun e => Int.tmod e 2 == 0)).sum = bruteForce (bottom + 1) top := by
        rw [← calculate]
        exact ih (bottom + 1) (by omega)
      rw [calculate, rangeIncl_eq_cons h, List.filter_cons]
      conv_rhs => rw [bruteForce]
      rw [if_neg hnlt]
      by_cases hb : bottom % 2 = 0
      · have hb' : (Int.tmod bottom 2 == 0) = true := by
          simp only [beq_iff_eq]
          exact (tmod_two_eq_zero_iff bottom).mpr hb
        rw [hb', if_pos rfl, if_pos hb, List.sum_cons, hrec]
      · have hb' : (Int.tmod bottom 2 == 0) = false := by
          simp only [beq_eq_false_iff_ne, ne_eq]
          intro hh
          exact hb ((tmod_two_eq_zero_iff bottom).mp hh)
        rw [hb', if_neg hb, if_neg (by simp), hrec, Int.zero_add]

lemma Icc_eq_insert {bottom top : Int} (h : bottom ≤ top) :
    Finset.Icc bottom top = insert bottom (Finset.Icc (bottom + 1) top) := by
  ext x
  simp only [Finset.mem_Icc, Finset.mem_insert]
  omega

lemma bruteForce_eq_finset_sum (bottom top : Int) :
    bruteForce bottom top =
      ∑ i in (Finset.Icc bottom top).filter (fun i => i % 2 = 0), i := by
  generalize hn : (top + 1 - bottom).toNat = n
  induction n generalizing bottom with
  | zero =>
      have h : top < bottom := by omega
      rw [bruteForce, if_pos h, Finset.Icc_eq_empty (by omega)]
      simp
  | succ n ih =>
      have h : bottom ≤ top := by omega
      have hnot : bottom ∉ Finset.Icc (bottom + 1) top := by
        simp only [Finset.mem_Icc]
        omega
      rw [bruteForce, if_neg (by omega), Icc_eq_insert h, Finset.filter_insert,
        ih (bottom + 1) (by omega)]
      by_cases hb : bottom % 2 = 0
      · rw [if_pos hb, if_pos hb, Finset.sum_insert (by
          intro hmem
          exact hnot (Finset.mem_of_mem_filter _ hmem))]
      · rw [if_neg hb, if_neg hb, Int.zero_add]

-- C2 / C6 / C9 -------------------------------------------------------------

/-- C2: for all integers bottom and top with bottom > top, the inclusive
range is empty and calculate returns 0. -/
theorem calculate_empty_range (bottom top : Int) (h : top < bottom) :
    calculate bottom top = 0 := by
  rw [calculate, rangeIncl_eq_nil h]
  rfl

theorem calculate_empty_range_witness : calculate 5 1 = 0 :=
  calculate_empty_range 5 1 (by decide)

/-- C6: the iterator-based calculate (range, filter by evenness, sum) agrees
with the naive brute-force reference definition that walks every integer of
the inclusive range and adds the even ones, for all bound pairs. -/
theorem calculate_matches_brute_force (bottom top : Int) :
    calculate bottom top = bruteForce bottom top :=
  calculate_eq_bruteForce bottom top

/-- C9: calculate is a pure, deterministic function of its two arguments:
two calls with equal arguments return equal results (the embedding is a
total function with no state, modelling the side-effect-free Rust body). -/
theorem calculate_deterministic (b1 t1 b2 t2 : Int)
    (hb : b1 = b2) (ht : t1 = t2) :
    calculate b1 t1 = calculate b2 t2 := by
  rw [hb, ht]

theorem calculate_deterministic_witness : calculate 1 5 = calculate 1 5 :=
  calculate_deterministic 1 5 1 5 rfl rfl

-- C8: wrapping i32 semantics ------------------------------------------------

lemma wrap32_in_range (x : Int) : inRange32 (wrap32 x) := by
  unfold inRange32 wrap32
  omega

lemma wrap32_wrap32_add (a b : Int) : wrap32 (wrap32 a + b) = wrap32 (a + b) := by
  unfold wrap32
  omega

lemma foldl_add32_eq (l : List Int) :
    ∀ a : Int, l.foldl add32 (wrap32 a) = wrap32 (a + l.sum) := by
  induction l with
  | nil =>
      intro a
      simp
  | cons x l ih =>
      intro a
      rw [List.foldl_cons, add32, wrap32_wrap32_add, ih (a + x), List.sum_cons]
      ring_nf

lemma foldl_add32_zero (l : List Int) : l.foldl add32 0 = wrap32 l.sum := by
  have h := foldl_add32_eq l 0
  rw [show wrap32 0 = (0 : Int) from by decide, Int.zero_add] at h
  exact h

lemma calculate32_eq_wrap (botton top : Int) :
    calculate32 botton top = wrap32 (calculate botton top) := by
  rw [calculate32, calculate, foldl_add32_zero]

/-- C8: calculate has no error conditions: on any in-range argument pair the
wrapping-i32 model of the pipeline is total and returns an in-range i32, and
its value is exactly the unbounded-integer sum reduced into two's-complement
i32 range (the host language's fixed-width semantics), with no special
overflow handling. -/
theorem calculate_overflow_follows_i32 (botton top : Int)
    (h1 : inRange32 botton) (h2 : inRange32 top) :
    inRange32 (calculate32 botton top) ∧
    calculate32 botton top = wrap32 (calculate botton top) := by
  refine ⟨?_, calculate32_eq_wrap botton top⟩
  rw [calculate32_eq_wrap]
  exact wrap32_in_range _

theorem calculate_overflow_follows_i32_witness :
    inRange32 (calculate32 1 5) ∧ calculate32 1 5 = wrap32 (calculate 1 5) :=
  calculate_overflow_follows_i32 1 5 (by decide) (by decide)

-- C1: corrected -------------------------------------------------------------

lemma wrap32_eq_self_of_inRange {x : Int} (h : inRange32 x) : wrap32 x = x := by
  unfold inRange32 at h
  unfold wrap32
  omega

/-- C1 counterexample: the claim as stated is false of the program.  At the
in-range argument pair (2147483644, 2147483646) the arithmetic sum of the
even integers of the range is 2147483644 + 2147483646 = 4294967290, which
exceeds the i32 maximum, so the source's i32 accumulation cannot return it:
under wrapping i32 semantics calculate returns -6 instead (and a debug
build panics). -/
theorem calculate_sums_even_integers_cex :
    (2147483644 : Int) ≤ 2147483646 ∧
    calculate32 2147483644 2147483646 ≠
      ∑ i in (Finset.Icc (2147483644 : Int) 2147483646).filter
        (fun i => i % 2 = 0), i := by
  decide

/-- C1 amended: for all integers bottom and top with bottom <= top such
that the arithmetic sum of the even integers of [bottom, top] itself fits
in the i32 range, calculate — under its faithful wrapping i32 semantics —
returns exactly that arithmetic sum; in particular calculate(1, 5) = 6. -/
theorem calculate_sums_even_integers_amended (bottom top : Int)
    (h : bottom ≤ top)
    (hsum : inRange32
      (∑ i in (Finset.Icc bottom top).filter (fun i => i % 2 = 0), i)) :
    calculate32 bottom top =
      ∑ i in (Finset.Icc bottom top).filter (fun i => i % 2 = 0), i ∧
    calculate32 1 5 = 6 := by
  have hs : calculate bottom top =
      ∑ i in (Finset.Icc bottom top).filter (fun i => i % 2 = 0), i := by
    rw [calculate_eq_bruteForce, bruteForce_eq_finset_sum]
  refine ⟨?_, by decide⟩
  rw [calculate32_eq_wrap, hs]
  exact wrap32_eq_self_of_inRange hsum

theorem calculate_sums_even_integers_amended_witness :
    (calculate32 1 5 =
      ∑ i in (Finset.Icc (1 : Int) 5).filter (fun i => i % 2 = 0), i ∧
    calculate32 1 5 = 6) :=
  calculate_sums_even_integers_amended 1 5 (by decide) (by decide)

-- Model of main's observable behaviour --------------------------------------

/-- Whitespace stripped by Rust's str::trim.  Rust trims every Unicode
White_Space character; the program's input handling is modelled over the
ASCII whitespace characters, which cover all inputs the spec discusses. -/
def isRustWs (c : Char) : Bool :=
  c = ' ' || c = '\t' || c = '\n' || c = '\r' || c = '\x0b' || c = '\x0c'

/-- Embedding of input.trim() (main.rs line 53): drop leading and trailing
whitespace. -/
def rustTrim (s : String) : String :=
  String.mk (((s.data.dropWhile isRustWs).reverse.dropWhile isRustWs).reverse)

/-- Value of a non-empty string of ASCII decimal digits. -/
def digitsToNat (l : List Char) : Nat :=
  l.foldl (fun a c => 10 * a + (c.toNat - Char.toNat '0')) 0

/-- The integer grammar accepted by Rust's i32 FromStr, before the range
check: an optional '+' or '-' sign followed by one or more ASCII digits. -/
def numericValue (s : String) : Option Int :=
  match s.data with
  | [] => none
  | '+' :: rest =>
      if !rest.isEmpty && rest.all Char.isDigit
      then some ((digitsToNat rest : Nat) : Int) else none
  | '-' :: rest =>
      if !rest.isEmpty && rest.all Char.isDigit
      then some (-((digitsToNat rest : Nat) : Int)) else none
  | l =>
      if l.all Char.isDigit
      then some ((digitsToNat l : Nat) : Int) else none

/-- Embedding of str::parse::<i32> as used on main.rs line 53: the numeric
grammar above plus the i32 range check (extensionally equal to Rust's
digit-by-digit checked accumulation). -/
def parseI32 (s : String) : Option Int :=
  match numericValue s with
  | some n => if inRange32 n then some n else none
  | none => none

/-- Embedding of the table loop (main.rs lines 55-57):
for i in 1..=10 { println!("{} x {} = {}", num, i, num * i) }. -/
def multTable (num : Int) : List String :=
  (List.range 10).map (fun k : Nat =>
    toString num ++ " x " ++ toString ((k : Int) + 1) ++ " = " ++
      toString (num * ((k : Int) + 1)))

/-- The separator line printed between the demo segments of main. -/
def sepLine : String :=
  "_________________________________"

/-- One step of the loop/continue/break demo (main.rs lines 15-26), with
explicit fuel; the Rust loop starts at num = 1 and breaks at num = 8, so any
fuel of at least 8 reproduces it. -/
def loopSegGo : Nat → Int → List String
  | 0, _ => []
  | fuel + 1, num =>
      if num == 5 then loopSegGo fuel (num + 1)
      else if num == 8 then []
      else toString num :: loopSegGo fuel (num + 1)

/-- Lines printed by the loop/continue/break demo. -/
def loopSeg : List String :=
  loopSegGo 20 1

/-- All lines main prints before reading standard input
(main.rs lines 4-50). -/
def introLines : List String :=
  ((List.range 10).map (fun k : Nat => toString (k + 1)))
    ++ [sepLine]
    ++ ((List.range 10).map (fun k : Nat => toString (10 - k)))
    ++ [sepLine]
    ++ loopSeg
    ++ [sepLine]
    ++ [toString (String.length "Ibrahim") ++ " " ++ "Ibrahim"]
    ++ [sepLine]
    ++ [toString ((fun x : Int => x + 2) 5)]
    ++ [sepLine]
    ++ (([1, 3, 5, 7, 78, 54] : List Int).map (fun v => toString v))
    ++ [sepLine]
    ++ ["Enter a num"]

/-- A row of the star-pattern demo: n stars. -/
def starsLine (n : Nat) : String :=
  String.mk (List.replicate n (Char.ofNat 42))

/-- The star-pattern demo (main.rs lines 61-67, height 5). -/
def patternSeg : List String :=
  (List.range 5).map (fun i : Nat => starsLine (i + 1))

/-- The counting demo (main.rs lines 72-74): 1 through 1000. -/
def countSeg : List String :=
  (List.range 1000).map (fun k : Nat => toString (k + 1))

/-- Lines printed after the multiplication table, up to but not including
the final calculate line (main.rs lines 60-78). -/
def tailMid : List String :=
  [sepLine] ++ patternSeg ++ [sepLine] ++ countSeg ++ [sepLine, ""]

/-- All lines printed after the multiplication table, ending with the result
of calculate(1, 5) (main.rs lines 60-81). -/
def tailLines : List String :=
  tailMid ++ [toString (calculate 1 5)]

/-- Whole-program model of main on one line of standard input: the list of
standard-output lines together with true for normal exit.  When the trimmed
input does not parse as an i32 the expect call panics, so the run stops
right after the pre-input lines with abnormal termination (false). -/
def runMain (input : String) : List String × Bool :=
  match parseI32 (rustTrim input) with
  | none => (introLines, false)
  | some num => (introLines ++ multTable num ++ tailLines, true)

lemma runMain_parse_none {s : String} (h : parseI32 (rustTrim s) = none) :
    runMain s = (introLines, false) := by
  unfold runMain
  rw [h]

lemma runMain_parse_some {s : String} {n : Int}
    (h : parseI32 (rustTrim s) = some n) :
    runMain s = (introLines ++ multTable n ++ tailLines, true) := by
  unfold runMain
  rw [h]

-- C3 / C4 / C5 / C7 / C10 ---------------------------------------------------

/-- C3: on input line "5" the multiplication table is exactly the ten lines
"5 x 1 = 5" through "5 x 10 = 50", emitted in increasing order of the
multiplier, and the run places them right after the pre-input lines. -/
theorem table_for_input_five :
    multTable 5 = ["5 x 1 = 5", "5 x 2 = 10", "5 x 3 = 15", "5 x 4 = 20",
      "5 x 5 = 25", "5 x 6 = 30", "5 x 7 = 35", "5 x 8 = 40", "5 x 9 = 45",
      "5 x 10 = 50"] ∧
    (multTable 5).length = 10 ∧
    runMain "5" = (introLines ++ multTable 5 ++ tailLines, true) :=
  ⟨by decide, rfl, rfl⟩

/-- C4: any input line whose trimmed content does not parse as an i32 makes
the expect call panic: the run terminates abnormally and the only lines
written are the pre-input ones, with no multiplication-table output. -/
theorem invalid_input_aborts (s : String)
    (h : parseI32 (rustTrim s) = none) :
    runMain s = (introLines, false) :=
  runMain_parse_none h

theorem invalid_input_aborts_witness :
    runMain "abc" = (introLines, false) ∧ runMain "" = (introLines, false) :=
  ⟨invalid_input_aborts "abc" rfl, invalid_input_aborts "" rfl⟩

/-- C5: parsing trims surrounding whitespace first: the line "  -3  " trims
to "-3", parses to -3, and the table then shows the negative products
"-3 x 1 = -3" through "-3 x 10 = -30". -/
theorem trimmed_negative_input_parses :
    rustTrim "  -3  " = "-3" ∧
    parseI32 (rustTrim "  -3  ") = some (-3) ∧
    multTable (-3) = ["-3 x 1 = -3", "-3 x 2 = -6", "-3 x 3 = -9",
      "-3 x 4 = -12", "-3 x 5 = -15", "-3 x 6 = -18", "-3 x 7 = -21",
      "-3 x 8 = -24", "-3 x 9 = -27", "-3 x 10 = -30"] ∧
    runMain "  -3  " = (introLines ++ multTable (-3) ++ tailLines, true) :=
  ⟨rfl, rfl, by decide, rfl⟩

/-- C7: a trimmed line that matches the signed-decimal grammar but whose
value falls outside the i32 range fails the parse, and the run hard-stops
exactly as for non-numeric input: abnormal termination right after the
pre-input lines. -/
theorem out_of_range_input_aborts (s : String) (n : Int)
    (h1 : numericValue (rustTrim s) = some n)
    (h2 : n < -(2 ^ 31) ∨ 2 ^ 31 - 1 < n) :
    parseI32 (rustTrim s) = none ∧ runMain s = (introLines, false) := by
  have hp : parseI32 (rustTrim s) = none := by
    unfold parseI32
    rw [h1]
    show (if inRange32 n then some n else none) = none
    rw [if_neg (by
      unfold inRange32
      omega)]
  exact ⟨hp, runMain_parse_none hp⟩

theorem out_of_range_input_aborts_witness :
    parseI32 (rustTrim "2147483648") = none ∧
    runMain "2147483648" = (introLines, false) :=
  out_of_range_input_aborts "2147483648" 2147483648 rfl (by decide)

/-- C10: on any input line that parses as an i32 the program runs to normal
completion, and the very last line of the run is the printed value of
calculate(1, 5), namely "6". -/
theorem valid_input_ends_with_six (s : String) (n : Int)
    (h : parseI32 (rustTrim s) = some n) :
    (runMain s).2 = true ∧
    (runMain s).1.getLast? = some (toString (calculate 1 5)) ∧
    calculate 1 5 = 6 := by
  rw [runMain_parse_some h]
  refine ⟨rfl, ?_, by decide⟩
  rw [tailLines,
    show introLines ++ multTable n ++ (tailMid ++ [toString (calculate 1 5)])
        = (introLines ++ multTable n ++ tailMid) ++ [toString (calculate 1 5)]
      by simp [List.append_assoc],
    List.getLast?_concat]

theorem valid_input_ends_with_six_witness :
    (runMain "5").2 = true ∧
    (runMain "5").1.getLast? = some (toString (calculate 1 5)) ∧
    calculate 1 5 = 6 :=
  valid_input_ends_with_six "5" 5 rfl
